import Mathlib

/-!
Verification of `src/server.js` (node-binshild): a shallow embedding in Lean 4
of the Network Identity Resolver (`getLocalIP`) and the Payment Gateway Adapter
(the `POST /create-payment-intent` and `POST /webhook` handlers), together with
theorems settling the specified contracts.

Modelling conventions:
* JavaScript strings are Lean `String`s; the string operations the source uses
  (`toLowerCase`, `includes`, `startsWith`) are modelled as structurally
  recursive functions over the underlying character lists so that they compute
  by kernel reduction (the source only feeds them ASCII data).
* `os.networkInterfaces()` is an association list from interface name to its
  bound addresses, in enumeration order (`Object.entries` order).
* `Array.prototype.sort` with the comparator `(a, b) => b.priority - a.priority`
  is, per ECMAScript 2019, a stable sort by descending priority; it is modelled
  as a stable insertion sort (stability plus sortedness determine the result
  uniquely for this consistent comparator).
* JavaScript numbers are modelled as `ℚ` (plus a separate NaN value); a
  `JVal.num q` stands for a finite double whose exact value is `q`. The only
  numeric operations the handler performs are truthiness (`!amount`) and the
  relational comparison `amount <= 0`. The `ToNumber` coercion of a string is
  modelled by `strToJSNum`, a complete rendition of the ECMAScript
  `StringNumericLiteral` grammar: the full JS whitespace set, optionally signed
  decimals with fraction and exponent parts, `Infinity`, and unsigned
  `0x`/`0o`/`0b` integer literals, yielding the literal's exact mathematical
  value (or an infinity, or NaN). ECMAScript then rounds that value to a
  double before comparing: the rounding never changes the verdict of `<= 0`
  except that a positive value of at most `2⁻¹⁰⁷⁵` rounds to `+0` (values
  above that midpoint round to a positive subnormal or larger, or to `+∞`),
  which the string branch of `jsLeZero` accounts for explicitly.
* The external Stripe client is a parameter: `stripe.paymentIntents.create` is
  a function to `Except String StripeIntent` (`.error` = thrown exception with
  that message), and `stripe.webhooks.constructEvent` outcomes are passed in as
  an `Except String WebhookEvent` value.
* Handlers return, besides the HTTP response, the observable side effect: the
  parameters of the external create call (if it was performed), respectively
  the dispatch branch taken by the webhook `switch`.
-/

namespace BinShild

/-! ### Character-list string helpers -/

/-- `s.toLowerCase()`, character by character (the source only compares ASCII
interface names against ASCII denylist fragments). -/
def lowerStr (s : String) : String := ⟨s.data.map Char.toLower⟩

/-- `s.startsWith(pre)`. -/
def strStartsWith (s pre : String) : Bool := pre.data.isPrefixOf s.data

/-- Does `pat` occur as a contiguous run inside `l`? (helper for `includes`). -/
def infixChars (pat : List Char) : List Char → Bool
  | [] => pat.isEmpty
  | c :: rest => pat.isPrefixOf (c :: rest) || infixChars pat rest

/-- `s.includes(pat)`. -/
def strContains (s pat : String) : Bool := infixChars pat.data s.data

/-- Is `s` a dotted-quad IPv4 literal (four dot-separated runs of digits, each
with value at most 255)? Used only to state well-formedness of interface
tables: `os.networkInterfaces()` reports dotted quads for `family: 'IPv4'`. -/
def splitDots : List Char → List (List Char)
  | [] => [[]]
  | c :: rest =>
    let r := splitDots rest
    if c = '.' then [] :: r else (c :: r.headD []) :: r.tail

/-- Numeric value of a run of decimal digit characters. -/
def digitsVal (l : List Char) : Nat := l.foldl (fun n c => 10 * n + (c.toNat - 48)) 0

/-- Dotted-quad IPv4 literal check (see `splitDots`). -/
def isIPv4Lit (s : String) : Bool :=
  let parts := splitDots s.data
  parts.length == 4 &&
    parts.all (fun p => !p.isEmpty && p.all Char.isDigit && digitsVal p ≤ 255)

/-! ### Network Identity Resolver (`getLocalIP`, src/server.js lines 12–70) -/

/-- One address record of `os.networkInterfaces()`: its `family`, `address`
and `internal` fields (the only ones the source reads). -/
structure NetAddr where
  family : String
  address : String
  internal : Bool
deriving DecidableEq

/-- The interface table: `Object.entries(os.networkInterfaces())`, an
association list in enumeration order. -/
abbrev IfaceTable := List (String × List NetAddr)

/-- The `ignorePatterns` array (lines 16–24). -/
def ignorePatterns : List String :=
  ["vmware", "virtualbox", "wintun", "radmin", "vpn", "teredo", "loopback"]

/-- The `ignoreIPs` array (lines 26–30). -/
def ignoreIPs : List String := ["169.254.", "26.", "192.168.56."]

/-- A resolver candidate (the objects pushed at line 50). -/
structure Candidate where
  name : String
  address : String
  priority : Nat
deriving DecidableEq

/-- Line 36: the interface is skipped when
`ignorePatterns.some(pattern => name.toLowerCase().includes(pattern))`. -/
def keepIface (name : String) : Bool :=
  ! ignorePatterns.any (fun pat => strContains (lowerStr name) pat)

/-- Lines 41–45: an address survives when `family === 'IPv4'`, not `internal`,
and no `ignoreIPs` entry is a prefix of the address. -/
def keepAddr (addr : NetAddr) : Bool :=
  addr.family == "IPv4" && !addr.internal &&
    ! ignoreIPs.any (fun ip => strStartsWith addr.address ip)

/-- Lines 46–54: the candidate pushed for interface `name` and address `addr`,
with priority 10 on the `192.168.0.` main subnet, else 5 when the lowercased
name contains `ethernet`, else 1. -/
def mkCandidate (name : String) (addr : NetAddr) : Candidate :=
  { name := name
    address := addr.address
    priority :=
      if strStartsWith addr.address "192.168.0." then 10
      else if strContains (lowerStr name) "ethernet" then 5
      else 1 }

/-- Lines 32–57: the `candidates` array after both loops, in discovery order. -/
def candidatesOf (table : IfaceTable) : List Candidate :=
  table.flatMap (fun entry =>
    if keepIface entry.1 then (entry.2.filter keepAddr).map (mkCandidate entry.1)
    else [])

/-- Stable insertion into a list sorted by descending priority: the new,
later-discovered element goes after all strictly-higher entries and before the
first entry of equal or lower priority it meets — but since it is inserted
coming from the left of `foldr`, equal-priority elements already present were
discovered later and must come after it. -/
def insertByPriority (c : Candidate) : List Candidate → List Candidate
  | [] => [c]
  | d :: rest =>
    if c.priority < d.priority then d :: insertByPriority c rest
    else c :: d :: rest

/-- Line 60: `candidates.sort((a, b) => b.priority - a.priority)` — a stable
sort by descending priority (ECMAScript 2019 guarantees sort stability). -/
def sortCandidates (l : List Candidate) : List Candidate := l.foldr insertByPriority []

/-- Lines 12–70: `getLocalIP()`, as a function of the interface table. Returns
`candidates[0].address` after sorting when any candidate survives, else the
literal `'localhost'`. -/
def getLocalIP (table : IfaceTable) : String :=
  match sortCandidates (candidatesOf table) with
  | [] => "localhost"
  | selected :: _ => selected.address

/-- Two successive calls of `getLocalIP` on the same (unchanged) table. -/
def resolveTwice (table : IfaceTable) : String × String :=
  (getLocalIP table, getLocalIP table)

/-! ### JavaScript values and coercions used by the amount check -/

/-- The JSON-derived values an `express.json()` body field can hold (scalars;
`nan` is kept separate from `num` so `ℚ` stays total). -/
inductive JVal where
  | undefined
  | nullv
  | bool (b : Bool)
  | num (q : ℚ)
  | nan
  | str (s : String)
deriving DecidableEq

/-- The ECMAScript `StrWhiteSpaceChar` set: `WhiteSpace` (TAB, VT, FF, SP,
NBSP, ZWNBSP and the Unicode space separators) together with the
`LineTerminator` characters (LF, CR, LS, PS). -/
def jsWhitespace (c : Char) : Bool :=
  c.toNat = 0x9 || c.toNat = 0xA || c.toNat = 0xB || c.toNat = 0xC ||
  c.toNat = 0xD || c.toNat = 0x20 || c.toNat = 0xA0 || c.toNat = 0x1680 ||
  (0x2000 ≤ c.toNat && c.toNat ≤ 0x200A) || c.toNat = 0x2028 ||
  c.toNat = 0x2029 || c.toNat = 0x202F || c.toNat = 0x205F ||
  c.toNat = 0x3000 || c.toNat = 0xFEFF

/-- `BinaryDigit` of the ECMAScript numeric grammar. -/
def isBinaryDigit (c : Char) : Bool := c = '0' || c = '1'

/-- `OctalDigit` of the ECMAScript numeric grammar. -/
def isOctalDigit (c : Char) : Bool := '0' ≤ c && c ≤ '7'

/-- `HexDigit` of the ECMAScript numeric grammar. -/
def isHexDigit (c : Char) : Bool :=
  c.isDigit || ('a' ≤ c && c ≤ 'f') || ('A' ≤ c && c ≤ 'F')

/-- The numeric value of one hex digit (also correct on octal/binary digits). -/
def hexDigitVal (c : Char) : Nat :=
  if c.isDigit then c.toNat - 48
  else if 'a' ≤ c && c ≤ 'f' then c.toNat - 87
  else c.toNat - 55

/-- Value of a digit run in the given radix. -/
def radixVal (radix : Nat) (l : List Char) : Nat :=
  l.foldl (fun n c => radix * n + hexDigitVal c) 0

/-- The result of `ToNumber` before rounding to a double: NaN, a signed
infinity, or an exact (mathematical) finite value. -/
inductive JSNum where
  | nan
  | inf (negative : Bool)
  | finite (mv : ℚ)
deriving DecidableEq

/-- `SignedInteger` of the `ExponentPart`: an optional sign then a non-empty
digit run, consuming the whole input. -/
def parseExpInt (l : List Char) : Option ℤ :=
  match l with
  | '+' :: rest =>
    if !rest.isEmpty && rest.all Char.isDigit then some (digitsVal rest : ℤ) else none
  | '-' :: rest =>
    if !rest.isEmpty && rest.all Char.isDigit then some (-(digitsVal rest : ℤ)) else none
  | rest =>
    if !rest.isEmpty && rest.all Char.isDigit then some (digitsVal rest : ℤ) else none

/-- `StrUnsignedDecimalLiteral` without the `Infinity` production: digits with
an optional fraction and an optional exponent (`DecimalDigits . DecimalDigits?
ExponentPart?` | `. DecimalDigits ExponentPart?` | `DecimalDigits
ExponentPart?`), consuming the whole input; the exact mathematical value. -/
def parseUnsigned (l : List Char) : Option ℚ :=
  let ip := l.takeWhile Char.isDigit
  let rest1 := l.dropWhile Char.isDigit
  match rest1 with
  | [] => if ip.isEmpty then none else some (digitsVal ip : ℚ)
  | '.' :: rest2 =>
    let frac := rest2.takeWhile Char.isDigit
    let rest3 := rest2.dropWhile Char.isDigit
    if ip.isEmpty && frac.isEmpty then none
    else
      match rest3 with
      | [] => some ((digitsVal ip : ℚ) + (digitsVal frac : ℚ) / (10 : ℚ) ^ frac.length)
      | c :: rest4 =>
        if c = 'e' || c = 'E' then
          (parseExpInt rest4).map (fun k =>
            ((digitsVal ip : ℚ) + (digitsVal frac : ℚ) / (10 : ℚ) ^ frac.length) * (10 : ℚ) ^ k)
        else none
  | c :: rest4 =>
    if (c = 'e' || c = 'E') && !ip.isEmpty then
      (parseExpInt rest4).map (fun k => (digitsVal ip : ℚ) * (10 : ℚ) ^ k)
    else none

/-- `NonDecimalIntegerLiteral`: `0x`/`0X`, `0o`/`0O` or `0b`/`0B` followed by a
non-empty run of digits of the radix, consuming the whole input (no sign, no
exponent). -/
def nonDecimalVal : List Char → Option ℚ
  | '0' :: c :: rest =>
    if (c = 'x' || c = 'X') && !rest.isEmpty && rest.all isHexDigit then
      some (radixVal 16 rest : ℚ)
    else if (c = 'o' || c = 'O') && !rest.isEmpty && rest.all isOctalDigit then
      some (radixVal 8 rest : ℚ)
    else if (c = 'b' || c = 'B') && !rest.isEmpty && rest.all isBinaryDigit then
      some (radixVal 2 rest : ℚ)
    else none
  | _ => none

/-- `StrUnsignedDecimalLiteral`: the literal `Infinity`, or a decimal literal
via `parseUnsigned`, with the sign already stripped by the caller. -/
def strUnsigned (l : List Char) (negative : Bool) : Option JSNum :=
  if l = "Infinity".data then some (.inf negative)
  else (parseUnsigned l).map (fun q => .finite (if negative then -q else q))

/-- ECMAScript `StringToNumber`: trim `StrWhiteSpace` from both ends, an empty
remainder is 0, then either a `NonDecimalIntegerLiteral` or an optionally
signed `StrUnsignedDecimalLiteral`; anything else is NaN. -/
def strToJSNum (s : String) : JSNum :=
  let t := ((s.data.dropWhile jsWhitespace).reverse.dropWhile jsWhitespace).reverse
  if t.isEmpty then .finite 0
  else
    match nonDecimalVal t with
    | some q => .finite q
    | none =>
      match t with
      | '+' :: rest => (strUnsigned rest false).getD .nan
      | '-' :: rest => (strUnsigned rest true).getD .nan
      | rest => (strUnsigned rest false).getD .nan

/-- JavaScript falsiness: `!v` is true exactly on these values. -/
def jsFalsy : JVal → Bool
  | .undefined => true
  | .nullv => true
  | .bool b => !b
  | .num q => q == 0
  | .nan => true
  | .str s => s == ""

/-- The comparison `v <= 0` (false when the numeric coercion is NaN). A
`JVal.num` is already a double, so its exact value decides the comparison. A
string's mathematical value `mv` is first rounded to a double: rounding flips
the verdict only for positive `mv ≤ 2⁻¹⁰⁷⁵`, which rounds to `+0` (the
midpoint `2⁻¹⁰⁷⁵` ties to the even `+0`; anything above rounds to a positive
subnormal or larger, or to `+∞`, all with `<= 0` false; every `mv ≤ 0` rounds
to a double that is `<= 0`). -/
def jsLeZero (v : JVal) : Bool :=
  match v with
  | .undefined => false
  | .nullv => true
  | .bool b => !b
  | .num q => decide (q ≤ 0)
  | .nan => false
  | .str s =>
    match strToJSNum s with
    | .nan => false
    | .inf negative => negative
    | .finite mv => decide (mv ≤ (1 : ℚ) / 2 ^ 1075)

/-! ### Payment Gateway Adapter (`POST /create-payment-intent`, lines 117–146) -/

/-- The `metadata` mapping, passed through opaquely. -/
abbrev Metadata := List (String × String)

/-- The parsed request body after destructuring `{ amount, currency = 'brl',
metadata = {} }`: `none` means the field was absent (so the default fires). -/
structure ReqBody where
  amount : JVal
  currency : Option String
  metadata : Option Metadata

/-- The argument object of `stripe.paymentIntents.create` (lines 128–133). -/
structure CreateParams where
  amount : JVal
  currency : String
  automaticPaymentMethods : Bool
  metadata : Metadata
deriving DecidableEq

/-- The processor's successful result: the fields the handler reads. -/
structure StripeIntent where
  client_secret : String
  id : String
deriving DecidableEq

/-- The JSON bodies this handler can send. -/
inductive RespBody where
  | errorBody (error : String) (message : String)
  | intentBody (client_secret : String) (payment_intent_id : String)
deriving DecidableEq

/-- An HTTP response: status code and JSON body. -/
structure HttpResponse where
  status : Nat
  body : RespBody
deriving DecidableEq

/-- Lines 117–146: the `POST /create-payment-intent` handler, parametrised by
the external processor (`.error msg` models a thrown exception carrying
`msg`). The second component records the argument of the external create call
when (and only when) that call was performed. -/
def createPaymentIntent (stripeCreate : CreateParams → Except String StripeIntent)
    (req : ReqBody) : HttpResponse × Option CreateParams :=
  let amount := req.amount
  let currency := req.currency.getD "brl"
  let metadata := req.metadata.getD []
  if jsFalsy amount || jsLeZero amount then
    (⟨400, .errorBody "Valor inválido" "O valor deve ser maior que zero"⟩, none)
  else
    match stripeCreate ⟨amount, currency, true, metadata⟩ with
    | .ok intent =>
      (⟨200, .intentBody intent.client_secret intent.id⟩, some ⟨amount, currency, true, metadata⟩)
    | .error msg =>
      (⟨500, .errorBody "Erro interno" msg⟩, some ⟨amount, currency, true, metadata⟩)

/-! ### Webhook endpoint (`POST /webhook`, lines 149–173) -/

/-- `event.data.object` — the handler only reads `.id`. -/
structure EventObject where
  id : String
deriving DecidableEq

/-- `event.data`. -/
structure EventData where
  object : EventObject
deriving DecidableEq

/-- A verified Stripe event: its `type` tag and payload. -/
structure WebhookEvent where
  type : String
  data : EventData
deriving DecidableEq

/-- The two response shapes of the webhook route: `res.status(400).send(text)`
and `res.json({ received })`. -/
inductive WebhookResponse where
  | textResp (status : Nat) (body : String)
  | jsonResp (status : Nat) (received : Bool)
deriving DecidableEq

/-- The dispatch branch taken by the `switch` on `event.type` (lines 161–170),
each branch being a log line. -/
inductive WebhookLog where
  | succeededLog (id : String)
  | failedLog (id : String)
  | ignoredLog (eventType : String)
deriving DecidableEq

/-- The `switch (event.type)` dispatch. -/
def dispatchLog (event : WebhookEvent) : WebhookLog :=
  match event.type with
  | "payment_intent.succeeded" => .succeededLog event.data.object.id
  | "payment_intent.payment_failed" => .failedLog event.data.object.id
  | _ => .ignoredLog event.type

/-- Lines 149–173: the `POST /webhook` handler, parametrised by the outcome of
`stripe.webhooks.constructEvent` (`.error err` models the thrown verification
error with message `err`). The second component is the dispatch branch taken,
`none` when verification failed before the `switch`. -/
def webhookHandler (constructEvent : Except String WebhookEvent) :
    WebhookResponse × Option WebhookLog :=
  match constructEvent with
  | .error err => (.textResp 400 ("Webhook Error: " ++ err), none)
  | .ok event => (.jsonResp 200 true, some (dispatchLog event))

/-! ### Helper lemmas about the resolver -/

theorem mem_insertByPriority {x c : Candidate} {l : List Candidate} :
    x ∈ insertByPriority c l ↔ x = c ∨ x ∈ l := by
  induction l with
  | nil => simp [insertByPriority]
  | cons d rest ih =>
    simp only [insertByPriority]
    split
    · simp [List.mem_cons, ih]; tauto
    · simp [List.mem_cons]

theorem mem_sortCandidates {x : Candidate} {l : List Candidate} :
    x ∈ sortCandidates l ↔ x ∈ l := by
  induction l with
  | nil => simp [sortCandidates]
  | cons a t ih =>
    simp only [sortCandidates, List.foldr_cons] at *
    rw [mem_insertByPriority, ih, List.mem_cons]

theorem insertByPriority_ne_nil (c : Candidate) (l : List Candidate) :
    insertByPriority c l ≠ [] := by
  cases l with
  | nil => simp [insertByPriority]
  | cons d rest =>
    simp only [insertByPriority]
    split <;> simp

theorem sortCandidates_eq_nil_iff {l : List Candidate} :
    sortCandidates l = [] ↔ l = [] := by
  cases l with
  | nil => simp [sortCandidates]
  | cons a t =>
    simp only [sortCandidates, List.foldr_cons]
    exact ⟨fun h => absurd h (insertByPriority_ne_nil a _), fun h => by cases h⟩

/-- The head of the sorted candidate list is the first candidate, in discovery
order, whose priority is maximal. -/
theorem head_sortCandidates :
    ∀ (l : List Candidate) (c : Candidate) (rest : List Candidate),
      sortCandidates l = c :: rest →
      ∃ l₁ l₂, l = l₁ ++ c :: l₂ ∧ (∀ d ∈ l, d.priority ≤ c.priority) ∧
        ∀ d ∈ l₁, d.priority < c.priority := by
  intro l
  induction l with
  | nil => intro c rest h; simp [sortCandidates] at h
  | cons a t ih =>
    intro c rest h
    rw [show sortCandidates (a :: t) = insertByPriority a (sortCandidates t) from rfl] at h
    cases hs : sortCandidates t with
    | nil =>
      have ht : t = [] := sortCandidates_eq_nil_iff.1 hs
      rw [hs] at h
      simp only [insertByPriority] at h
      obtain ⟨hca, hrest⟩ := List.cons.inj h
      subst hca; subst ht
      exact ⟨[], [], rfl, by simp, by simp⟩
    | cons b s =>
      rw [hs] at h
      simp only [insertByPriority] at h
      obtain ⟨m₁, m₂, htEq, hmax, hstrict⟩ := ih b s hs
      by_cases hab : a.priority < b.priority
      · rw [if_pos hab] at h
        obtain ⟨hcb, hrest⟩ := List.cons.inj h
        subst hcb
        refine ⟨a :: m₁, m₂, by rw [htEq]; rfl, ?_, ?_⟩
        · intro d hd
          rcases List.mem_cons.1 hd with rfl | hd'
          · exact Nat.le_of_lt hab
          · exact hmax d hd'
        · intro d hd
          rcases List.mem_cons.1 hd with rfl | hd'
          · exact hab
          · exact hstrict d hd'
      · rw [if_neg hab] at h
        obtain ⟨hca, hrest⟩ := List.cons.inj h
        subst hca
        refine ⟨[], t, rfl, ?_, by simp⟩
        intro d hd
        rcases List.mem_cons.1 hd with rfl | hd'
        · exact Nat.le_refl _
        · exact Nat.le_trans (hmax d hd') (Nat.le_of_not_lt hab)

/-- Membership in the candidate array: a candidate comes from an interface
entry that passes the name filter and an address of that entry that passes the
address filter. -/
theorem mem_candidatesOf {c : Candidate} {table : IfaceTable} :
    c ∈ candidatesOf table ↔
      ∃ entry ∈ table, keepIface entry.1 = true ∧
        ∃ a ∈ entry.2, keepAddr a = true ∧ c = mkCandidate entry.1 a := by
  simp only [candidatesOf, List.mem_flatMap]
  constructor
  · rintro ⟨entry, hent, hc⟩
    by_cases hk : keepIface entry.1
    · rw [if_pos hk] at hc
      rcases List.mem_map.1 hc with ⟨a, ha, rfl⟩
      rcases List.mem_filter.1 ha with ⟨ha2, hka⟩
      exact ⟨entry, hent, hk, a, ha2, hka, rfl⟩
    · rw [if_neg hk] at hc
      cases hc
  · rintro ⟨entry, hent, hk, a, ha, hka, rfl⟩
    refine ⟨entry, hent, ?_⟩
    rw [if_pos hk]
    exact List.mem_map_of_mem _ (List.mem_filter.2 ⟨ha, hka⟩)

theorem keepIface_eq_true_iff {n : String} :
    keepIface n = true ↔ ∀ pat ∈ ignorePatterns, strContains (lowerStr n) pat = false := by
  simp [keepIface, List.any_eq_false]

theorem keepAddr_eq_true_iff {a : NetAddr} :
    keepAddr a = true ↔
      a.family = "IPv4" ∧ a.internal = false ∧
        ∀ ip ∈ ignoreIPs, strStartsWith a.address ip = false := by
  simp [keepAddr, List.any_eq_false, Bool.and_eq_true, and_assoc]

theorem isIPv4Lit_ne_localhost {s : String} (h : isIPv4Lit s = true) : s ≠ "localhost" := by
  intro heq
  rw [heq] at h
  exact absurd h (by decide)

/-- The priority stored in a surviving candidate is exactly the rank assigned
at lines 46–53, as a function of its own address and interface name. -/
theorem priority_characterization {c : Candidate} {table : IfaceTable}
    (hc : c ∈ candidatesOf table) :
    c.priority =
      if strStartsWith c.address "192.168.0." = true then 10
      else if strContains (lowerStr c.name) "ethernet" = true then 5
      else 1 := by
  rcases mem_candidatesOf.1 hc with ⟨entry, _, _, a, _, _, rfl⟩
  simp [mkCandidate]

theorem webhookError_starts (m : String) :
    strStartsWith ("Webhook Error: " ++ m) "Webhook Error:" = true := by
  unfold strStartsWith
  rw [List.isPrefixOf_iff_prefix, String.data_append]
  exact List.IsPrefix.trans (by decide) (List.prefix_append _ _)

/-! ### Claim theorems -/

/-- C1: for every request body whose `amount` is absent, zero, or negative,
`CreatePaymentIntent` responds with status 400 carrying an error field, and the
external processor's create operation is not invoked. -/
theorem createPaymentIntent_rejects_invalid
    (stripeCreate : CreateParams → Except String StripeIntent) (req : ReqBody)
    (h : req.amount = .undefined ∨ req.amount = .num 0 ∨
      ∃ q : ℚ, q < 0 ∧ req.amount = .num q) :
    (createPaymentIntent stripeCreate req).1.status = 400 ∧
    (∃ e m, (createPaymentIntent stripeCreate req).1.body = .errorBody e m) ∧
    (createPaymentIntent stripeCreate req).2 = none := by
  have hcheck : (jsFalsy req.amount || jsLeZero req.amount) = true := by
    rcases h with h | h | ⟨q, hq, h⟩ <;> rw [h]
    · rfl
    · rfl
    · simp [jsFalsy, jsLeZero, le_of_lt hq]
  simp [createPaymentIntent, hcheck]

/-- C1 witness: `amount = -5` is rejected with a 400 and no external call. -/
theorem createPaymentIntent_rejects_invalid_witness :
    (createPaymentIntent (fun _ => .error "boom") ⟨.num (-5), none, none⟩).1.status = 400 ∧
    (∃ e m, (createPaymentIntent (fun _ => .error "boom")
      ⟨.num (-5), none, none⟩).1.body = .errorBody e m) ∧
    (createPaymentIntent (fun _ => .error "boom") ⟨.num (-5), none, none⟩).2 = none :=
  createPaymentIntent_rejects_invalid (fun _ => .error "boom") ⟨.num (-5), none, none⟩
    (Or.inr (Or.inr ⟨-5, by decide, rfl⟩))

/-- C2: the webhook route answers 400 with a plain-text body beginning
`Webhook Error:` exactly when signature verification fails, dispatches no event
in that case, and acknowledges every verified event (any type) with
`{received: true}`. -/
theorem webhookHandler_contract (v : Except String WebhookEvent) :
    ((∃ m, v = .error m) ↔
      ∃ b, (webhookHandler v).1 = .textResp 400 b ∧
        strStartsWith b "Webhook Error:" = true) ∧
    (∀ m, v = .error m →
      webhookHandler v = (.textResp 400 ("Webhook Error: " ++ m), none)) ∧
    (∀ event, v = .ok event →
      webhookHandler v = (.jsonResp 200 true, some (dispatchLog event))) := by
  refine ⟨?_, ?_, ?_⟩
  · cases v with
    | error e =>
      constructor
      · intro _
        exact ⟨"Webhook Error: " ++ e, rfl, webhookError_starts e⟩
      · intro _; exact ⟨e, rfl⟩
    | ok event =>
      constructor
      · rintro ⟨m, hm⟩; cases hm
      · rintro ⟨b, hb, -⟩
        simp [webhookHandler] at hb
  · rintro m rfl; rfl
  · rintro event rfl; rfl

/-- C2 witness: a failing verification yields the 400 text response and no
dispatch; a verified event of unrecognized type still gets `{received: true}`. -/
theorem webhookHandler_contract_witness :
    webhookHandler (.error "No signatures found") =
      (.textResp 400 ("Webhook Error: " ++ "No signatures found"), none) ∧
    webhookHandler (.ok ⟨"charge.refunded", ⟨⟨"pi_9"⟩⟩⟩) =
      (.jsonResp 200 true, some (dispatchLog ⟨"charge.refunded", ⟨⟨"pi_9"⟩⟩⟩)) :=
  ⟨(webhookHandler_contract _).2.1 "No signatures found" rfl,
   (webhookHandler_contract _).2.2 ⟨"charge.refunded", ⟨⟨"pi_9"⟩⟩⟩ rfl⟩

/-- C3: every exception of the external create call is caught and mapped to a
500 response whose `message` field is the underlying message verbatim — one
response shape for all processor errors. -/
theorem createPaymentIntent_upstream_error
    (stripeCreate : CreateParams → Except String StripeIntent) (req : ReqBody) (m : String)
    (hvalid : (jsFalsy req.amount || jsLeZero req.amount) = false)
    (herr : stripeCreate
      ⟨req.amount, req.currency.getD "brl", true, req.metadata.getD []⟩ = .error m) :
    (createPaymentIntent stripeCreate req).1 = ⟨500, .errorBody "Erro interno" m⟩ := by
  simp [createPaymentIntent, hvalid, herr]

/-- C3 witness: a stub raising `"card declined"` surfaces as a 500 whose
message is exactly `"card declined"`. -/
theorem createPaymentIntent_upstream_error_witness :
    (createPaymentIntent (fun _ => .error "card declined")
      ⟨.num 1000, some "brl", none⟩).1 = ⟨500, .errorBody "Erro interno" "card declined"⟩ :=
  createPaymentIntent_upstream_error (fun _ => .error "card declined")
    ⟨.num 1000, some "brl", none⟩ "card declined" (by decide) rfl

/-- C4: on processor success the handler answers 200 with exactly the
processor-issued `{client_secret, payment_intent_id}` pair, untransformed. -/
theorem createPaymentIntent_success_passthrough
    (stripeCreate : CreateParams → Except String StripeIntent) (req : ReqBody)
    (cs pid : String)
    (hvalid : (jsFalsy req.amount || jsLeZero req.amount) = false)
    (hok : stripeCreate
      ⟨req.amount, req.currency.getD "brl", true, req.metadata.getD []⟩ = .ok ⟨cs, pid⟩) :
    (createPaymentIntent stripeCreate req).1 = ⟨200, .intentBody cs pid⟩ := by
  simp [createPaymentIntent, hvalid, hok]

/-- C4 witness: `amount = 1000, currency = "brl"` against a stub echoing
`{client_secret: "secret_abc", payment_intent_id: "pi_123"}` returns exactly
that pair with status 200. -/
theorem createPaymentIntent_success_passthrough_witness :
    (createPaymentIntent (fun _ => .ok ⟨"secret_abc", "pi_123"⟩)
      ⟨.num 1000, some "brl", none⟩).1 = ⟨200, .intentBody "secret_abc" "pi_123"⟩ :=
  createPaymentIntent_success_passthrough (fun _ => .ok ⟨"secret_abc", "pi_123"⟩)
    ⟨.num 1000, some "brl", none⟩ "secret_abc" "pi_123" (by decide) rfl

/-- C5: whenever the candidate set is non-empty, `getLocalIP` returns the
address of the first candidate, in discovery order, of maximal priority (a
stable descending sort decides the winner). -/
theorem getLocalIP_first_max (table : IfaceTable) (h : candidatesOf table ≠ []) :
    ∃ c l₁ l₂, candidatesOf table = l₁ ++ c :: l₂ ∧ getLocalIP table = c.address ∧
      (∀ d ∈ candidatesOf table, d.priority ≤ c.priority) ∧
      ∀ d ∈ l₁, d.priority < c.priority := by
  have hs : sortCandidates (candidatesOf table) ≠ [] := by
    intro hnil
    exact h (sortCandidates_eq_nil_iff.1 hnil)
  cases hsort : sortCandidates (candidatesOf table) with
  | nil => exact absurd hsort hs
  | cons c rest =>
    obtain ⟨l₁, l₂, hdec, hmax, hstrict⟩ := head_sortCandidates _ c rest hsort
    exact ⟨c, l₁, l₂, hdec, by simp [getLocalIP, hsort], hmax, hstrict⟩

/-- C5 witness: on a table with two tied priority-1 candidates the first
discovered (`10.1.2.3` on `Wi-Fi`) wins. -/
theorem getLocalIP_first_max_witness :
    candidatesOf [("Wi-Fi", [⟨"IPv4", "10.1.2.3", false⟩]),
        ("eth0", [⟨"IPv4", "10.4.5.6", false⟩])] ≠ [] ∧
    ∃ c l₁ l₂,
      candidatesOf [("Wi-Fi", [⟨"IPv4", "10.1.2.3", false⟩]),
          ("eth0", [⟨"IPv4", "10.4.5.6", false⟩])] = l₁ ++ c :: l₂ ∧
      getLocalIP [("Wi-Fi", [⟨"IPv4", "10.1.2.3", false⟩]),
          ("eth0", [⟨"IPv4", "10.4.5.6", false⟩])] = c.address ∧
      (∀ d ∈ candidatesOf [("Wi-Fi", [⟨"IPv4", "10.1.2.3", false⟩]),
          ("eth0", [⟨"IPv4", "10.4.5.6", false⟩])], d.priority ≤ c.priority) ∧
      ∀ d ∈ l₁, d.priority < c.priority :=
  ⟨by decide,
   getLocalIP_first_max [("Wi-Fi", [⟨"IPv4", "10.1.2.3", false⟩]),
     ("eth0", [⟨"IPv4", "10.4.5.6", false⟩])] (by decide)⟩

/-- C6: on a well-formed table (IPv4-family entries carry dotted-quad
addresses), a non-empty candidate set yields a non-`"localhost"` result, and an
empty candidate set yields exactly `"localhost"`; `getLocalIP` is a total
function, so it never throws. -/
theorem getLocalIP_fallback_spec (table : IfaceTable)
    (hwf : ∀ entry ∈ table, ∀ a ∈ entry.2, a.family = "IPv4" → isIPv4Lit a.address = true) :
    (candidatesOf table = [] → getLocalIP table = "localhost") ∧
    (candidatesOf table ≠ [] → getLocalIP table ≠ "localhost") := by
  constructor
  · intro hnil
    simp [getLocalIP, sortCandidates_eq_nil_iff.2 hnil]
  · intro hne
    cases hsort : sortCandidates (candidatesOf table) with
    | nil => exact absurd (sortCandidates_eq_nil_iff.1 hsort) hne
    | cons c rest =>
      have hmem : c ∈ candidatesOf table :=
        mem_sortCandidates.1 (hsort ▸ List.mem_cons_self c rest)
      rcases mem_candidatesOf.1 hmem with ⟨entry, hent, _, a, ha, hka, rfl⟩
      have hfam : a.family = "IPv4" := (keepAddr_eq_true_iff.1 hka).1
      have hlit : isIPv4Lit a.address = true := hwf entry hent a ha hfam
      have : getLocalIP table = a.address := by simp [getLocalIP, hsort, mkCandidate]
      rw [this]
      exact isIPv4Lit_ne_localhost hlit

/-- C6 witness: a surviving dotted-quad candidate gives a non-`"localhost"`
answer, and the empty table falls back to `"localhost"`. -/
theorem getLocalIP_fallback_spec_witness :
    ((candidatesOf [("Wi-Fi", [⟨"IPv4", "10.1.2.3", false⟩])] = [] →
        getLocalIP [("Wi-Fi", [⟨"IPv4", "10.1.2.3", false⟩])] = "localhost") ∧
      (candidatesOf [("Wi-Fi", [⟨"IPv4", "10.1.2.3", false⟩])] ≠ [] →
        getLocalIP [("Wi-Fi", [⟨"IPv4", "10.1.2.3", false⟩])] ≠ "localhost")) ∧
    ((candidatesOf ([] : IfaceTable) = [] → getLocalIP [] = "localhost") ∧
      (candidatesOf ([] : IfaceTable) ≠ [] → getLocalIP [] ≠ "localhost")) :=
  ⟨getLocalIP_fallback_spec [("Wi-Fi", [⟨"IPv4", "10.1.2.3", false⟩])] (by decide),
   getLocalIP_fallback_spec [] (by decide)⟩

/-- C7 counterexample: the claim's denylist fragment `tunnel-adapter` is not in
the code's `ignorePatterns` (which has `wintun`, `radmin` and `teredo`
instead), so an interface whose name contains `tunnel-adapter` survives the
filter and its address is returned. -/
theorem getLocalIP_tunnel_adapter_counterexample :
    getLocalIP [("Tunnel-Adapter Local", [⟨"IPv4", "10.0.0.7", false⟩])] = "10.0.0.7" ∧
    strContains (lowerStr "Tunnel-Adapter Local") "tunnel-adapter" = true := by
  constructor <;> decide

/-- C7 (amended): `getLocalIP` either falls back to `"localhost"` or returns an
address bound to an interface whose lowercased name contains none of the code's
denylist fragments (`vmware`, `virtualbox`, `wintun`, `radmin`, `vpn`,
`teredo`, `loopback`), with `family` IPv4, not internal, and not matching any
denied prefix (`169.254.`, `26.`, `192.168.56.`). -/
theorem getLocalIP_denylists (table : IfaceTable) :
    getLocalIP table = "localhost" ∨
      ∃ entry ∈ table, ∃ a ∈ entry.2,
        getLocalIP table = a.address ∧ a.family = "IPv4" ∧ a.internal = false ∧
        (∀ pat ∈ ignorePatterns, strContains (lowerStr entry.1) pat = false) ∧
        ∀ ip ∈ ignoreIPs, strStartsWith a.address ip = false := by
  cases hsort : sortCandidates (candidatesOf table) with
  | nil => exact Or.inl (by simp [getLocalIP, hsort])
  | cons c rest =>
    have hmem : c ∈ candidatesOf table :=
      mem_sortCandidates.1 (hsort ▸ List.mem_cons_self c rest)
    rcases mem_candidatesOf.1 hmem with ⟨entry, hent, hki, a, ha, hka, rfl⟩
    obtain ⟨hfam, hint, hip⟩ := keepAddr_eq_true_iff.1 hka
    refine Or.inr ⟨entry, hent, a, ha, ?_, hfam, hint, keepIface_eq_true_iff.1 hki, hip⟩
    simp [getLocalIP, hsort, mkCandidate]

/-- C8: a surviving candidate's priority is 10 on the `192.168.0.` main
subnet, 5 for an off-subnet interface whose name contains `ethernet`, and 1
otherwise; hence a main-subnet candidate strictly outranks every other, and a
wired-only candidate strictly outranks the rest. -/
theorem candidate_priority_ranks (table : IfaceTable) (c : Candidate)
    (hc : c ∈ candidatesOf table) :
    (strStartsWith c.address "192.168.0." = true → c.priority = 10) ∧
    (strStartsWith c.address "192.168.0." = false →
      strContains (lowerStr c.name) "ethernet" = true → c.priority = 5) ∧
    (strStartsWith c.address "192.168.0." = false →
      strContains (lowerStr c.name) "ethernet" = false → c.priority = 1) ∧
    (∀ d ∈ candidatesOf table, strStartsWith c.address "192.168.0." = true →
      strStartsWith d.address "192.168.0." = false → d.priority < c.priority) ∧
    (∀ d ∈ candidatesOf table, strStartsWith c.address "192.168.0." = false →
      strContains (lowerStr c.name) "ethernet" = true →
      strStartsWith d.address "192.168.0." = false →
      strContains (lowerStr d.name) "ethernet" = false → d.priority < c.priority) := by
  have hcp := priority_characterization hc
  refine ⟨?_, ?_, ?_, ?_, ?_⟩
  · intro h1; rw [hcp, if_pos h1]
  · intro h1 h2; rw [hcp, if_neg (by simp [h1]), if_pos h2]
  · intro h1 h2; rw [hcp, if_neg (by simp [h1]), if_neg (by simp [h2])]
  · intro d hd h1 h2
    have hdp := priority_characterization hd
    rw [hcp, if_pos h1, hdp, if_neg (by simp [h2])]
    split <;> omega
  · intro d hd h1 h2 h3 h4
    have hdp := priority_characterization hd
    rw [hcp, if_neg (by simp [h1]), if_pos h2, hdp, if_neg (by simp [h3]),
      if_neg (by simp [h4])]
    omega

/-- C8 witness: the tie-free three-tier ranking on a concrete table with one
candidate of each tier. -/
theorem candidate_priority_ranks_witness :
    (⟨"Wi-Fi", "192.168.0.5", 10⟩ : Candidate) ∈
      candidatesOf [("Wi-Fi", [⟨"IPv4", "192.168.0.5", false⟩]),
        ("Ethernet 2", [⟨"IPv4", "10.0.0.2", false⟩]),
        ("wlan1", [⟨"IPv4", "10.0.0.3", false⟩])] ∧
    ((strStartsWith (Candidate.address ⟨"Wi-Fi", "192.168.0.5", 10⟩) "192.168.0." = true →
        Candidate.priority ⟨"Wi-Fi", "192.168.0.5", 10⟩ = 10) ∧
      (strStartsWith (Candidate.address ⟨"Wi-Fi", "192.168.0.5", 10⟩) "192.168.0." = false →
        strContains (lowerStr (Candidate.name ⟨"Wi-Fi", "192.168.0.5", 10⟩)) "ethernet" = true →
        Candidate.priority ⟨"Wi-Fi", "192.168.0.5", 10⟩ = 5) ∧
      (strStartsWith (Candidate.address ⟨"Wi-Fi", "192.168.0.5", 10⟩) "192.168.0." = false →
        strContains (lowerStr (Candidate.name ⟨"Wi-Fi", "192.168.0.5", 10⟩)) "ethernet" = false →
        Candidate.priority ⟨"Wi-Fi", "192.168.0.5", 10⟩ = 1) ∧
      (∀ d ∈ candidatesOf [("Wi-Fi", [⟨"IPv4", "192.168.0.5", false⟩]),
          ("Ethernet 2", [⟨"IPv4", "10.0.0.2", false⟩]),
          ("wlan1", [⟨"IPv4", "10.0.0.3", false⟩])],
        strStartsWith (Candidate.address ⟨"Wi-Fi", "192.168.0.5", 10⟩) "192.168.0." = true →
        strStartsWith d.address "192.168.0." = false →
        d.priority < Candidate.priority ⟨"Wi-Fi", "192.168.0.5", 10⟩) ∧
      (∀ d ∈ candidatesOf [("Wi-Fi", [⟨"IPv4", "192.168.0.5", false⟩]),
          ("Ethernet 2", [⟨"IPv4", "10.0.0.2", false⟩]),
          ("wlan1", [⟨"IPv4", "10.0.0.3", false⟩])],
        strStartsWith (Candidate.address ⟨"Wi-Fi", "192.168.0.5", 10⟩) "192.168.0." = false →
        strContains (lowerStr (Candidate.name ⟨"Wi-Fi", "192.168.0.5", 10⟩)) "ethernet" = true →
        strStartsWith d.address "192.168.0." = false →
        strContains (lowerStr d.name) "ethernet" = false →
        d.priority < Candidate.priority ⟨"Wi-Fi", "192.168.0.5", 10⟩)) :=
  ⟨by decide,
   candidate_priority_ranks [("Wi-Fi", [⟨"IPv4", "192.168.0.5", false⟩]),
     ("Ethernet 2", [⟨"IPv4", "10.0.0.2", false⟩]),
     ("wlan1", [⟨"IPv4", "10.0.0.3", false⟩])] ⟨"Wi-Fi", "192.168.0.5", 10⟩ (by decide)⟩

/-- C9: the resolver's result is a deterministic function of the interface
table alone — two calls on the unchanged table agree. -/
theorem resolveTwice_deterministic (table : IfaceTable) :
    (resolveTwice table).1 = (resolveTwice table).2 := rfl

/-- C10: the amount check rejects exactly the falsy-or-`<= 0` amounts; a
positive non-integer such as `10.5` and a non-numeric non-empty string such as
`"abc"` pass validation, and the external create call receives that very
value. -/
theorem createPaymentIntent_unvalidated_amounts
    (stripeCreate : CreateParams → Except String StripeIntent)
    (c : Option String) (md : Option Metadata) :
    (createPaymentIntent stripeCreate ⟨.num (10.5 : ℚ), c, md⟩).2 =
      some ⟨.num (10.5 : ℚ), c.getD "brl", true, md.getD []⟩ ∧
    (createPaymentIntent stripeCreate ⟨.str "abc", c, md⟩).2 =
      some ⟨.str "abc", c.getD "brl", true, md.getD []⟩ ∧
    ∀ req : ReqBody,
      ((createPaymentIntent stripeCreate req).2 = none ↔
        (jsFalsy req.amount || jsLeZero req.amount) = true) := by
  have h105 : (jsFalsy (.num (10.5 : ℚ)) || jsLeZero (.num (10.5 : ℚ))) = false := by
    simp [jsFalsy, jsLeZero]
    norm_num
  have habc : (jsFalsy (.str "abc") || jsLeZero (.str "abc")) = false := by decide
  refine ⟨?_, ?_, ?_⟩
  · simp only [createPaymentIntent, h105, Bool.false_eq_true, if_false]
    cases stripeCreate ⟨.num (10.5 : ℚ), c.getD "brl", true, md.getD []⟩ <;> rfl
  · simp only [createPaymentIntent, habc, Bool.false_eq_true, if_false]
    cases stripeCreate ⟨.str "abc", c.getD "brl", true, md.getD []⟩ <;> rfl
  · intro req
    by_cases hcond : (jsFalsy req.amount || jsLeZero req.amount) = true
    · simp [createPaymentIntent, hcond]
    · rw [Bool.not_eq_true] at hcond
      simp only [createPaymentIntent, hcond, Bool.false_eq_true, if_false]
      cases stripeCreate ⟨req.amount, req.currency.getD "brl", true, req.metadata.getD []⟩ <;>
        simp [hcond]

end BinShild
